import Mathlib

/-!
# tap-v2 board support: crash capture and boot-time fault recovery

A shallow embedding of `src/drivers/boards/tap-v2/tap_init.c`:

* `copy_reverse` and `board_crashdump` (the fault-context capture), over a
  machine whose memory is a function from byte addresses to stack words;
* the hard-fault recovery step of `board_app_initialize` and its interactive
  menu loop, over an explicit world (store state, pending console input and
  an event log).

Conventions of the model:

* C integers that can wrap are natural numbers reduced modulo `2 ^ 32`;
  pointers are 32-bit byte addresses and `0` is `NULL`.
* The record `fullcontext_s` is built in the RAM of the machine, at `&_sdata`.
  A stack word read through a pointer (`Machine.load`) is the word that RAM
  holds at that moment: the word of the fault-time memory when its address
  lies outside of the record, and a word of the partly built record when it
  lies inside. Where the record lies and how its bytes are laid out comes from
  the linker script and from a header outside of `tap_init.c`, and is given by
  the fields `inRecord` and `recordWord` of the machine.
* The task control block, the file name bytes and `CURRENT_REGS` are the values
  that the code reads for them.
* Macros, array sizes and enum values that come from headers outside of
  `tap_init.c` are fields of `Config` or named constants.
* The functions of the fault record store that the boot code calls are the
  fields of `Store`; `specStore` is the store that the specification describes.
* The menu loop takes fuel, one unit for each evaluation of its body, and a
  run says whether the loop ended within the fuel.
-/

namespace TapV2

/-! ## Machine integers -/

/-- Conversion to `uint32_t` / `uintptr_t` on the 32-bit target. -/
def u32 (x : Nat) : Nat := x % 2 ^ 32

/-- Subtraction `a - b` of two `uint32_t` values, wrapping modulo `2 ^ 32`:
the difference when `b ≤ a`, and `2 ^ 32 - (b - a)` when the result wraps. -/
def usub32 (a b : Nat) : Nat :=
  if u32 b ≤ u32 a then u32 a - u32 b else 2 ^ 32 - (u32 b - u32 a)

/-- Size in bytes of `stack_word_t` (a `uint32_t`). -/
def WORD : Nat := 4

/-- Address `&ps[k]` for `stack_word_t *ps = (stack_word_t *) sp`. -/
def wordIndex (sp k : Nat) : Nat := u32 (sp + WORD * k)

/-- The result `OK`. -/
def OK : Int := 0
/-- No such device or address. -/
def ENXIO : Int := 6
/-- No space left on device. -/
def ENOSPC : Int := 28

/-! ## Fault flags (`fault_flags_t`) -/

/-- Modelled from the spec: the members of the `faultFlags` bitset. The enum
`fault_flags_t` of `systemlib/hardfault_log.h` is not part of the sources at
hand; each member is one distinct bit. -/
def eRegsPresent : Nat := 0x01
/-- Modelled from the spec: bitset member `UserStackPresent`. -/
def eUserStackPresent : Nat := 0x02
/-- Modelled from the spec: bitset member `InterruptStackPresent`. -/
def eIntStackPresent : Nat := 0x04
/-- Modelled from the spec: bitset member `InvalidUserStackPointer`. -/
def eInvalidUserStackPtr : Nat := 0x20
/-- Modelled from the spec: bitset member `InvalidInterruptStackPointer`. -/
def eInvalidIntStackPrt : Nat := 0x40

/-- The C test `(flags & e) != 0`. -/
def hasFlag (flags e : Nat) : Bool := flags &&& e != 0

/-! ## The fault record (`fullcontext_s`) -/

/-- One stack description, `_stack_s`. -/
structure stack_s where
  sp : Nat
  top : Nat
  size : Nat
  deriving DecidableEq, Repr

/-- The record `fullcontext_s`. The members of its `info` block (`info_s`) are
listed directly, and so are the two members `user` and `interrupt` of
`stacks`; `istack` and `ustack` are the two stack windows. -/
structure fullcontext_s where
  flags : Nat
  current_regs : Nat
  lineno : Int
  pid : Int
  regs : List Nat
  user : stack_s
  interrupt : stack_s
  name : List Nat
  filename : List Nat
  istack : List Nat
  ustack : List Nat
  deriving DecidableEq, Repr

/-- Compile-time configuration: macros and array sizes that come from headers
outside this file. -/
structure Config where
  /-- Width in bytes of `filename` (`sizeof(pdump->filename)`). -/
  MAX_FILE_PATH_LENGTH : Nat
  CONFIG_TASK_NAME_SIZE : Nat
  /-- Number of words of `regs`. -/
  XCPTCONTEXT_REGS : Nat
  /-- Index of the stack pointer in the saved register file. -/
  REG_R13 : Nat
  CONFIG_IDLETHREAD_STACKSIZE : Nat
  CONFIG_ARCH_INTERRUPTSTACK : Nat
  /-- Value of `arraySize(pdump->istack)`. -/
  istackWords : Nat
  /-- Value of `arraySize(pdump->ustack)`. -/
  ustackWords : Nat
  CONFIG_BOARD_RESET_ON_CRASH : Bool

/-- The fields of `struct tcb_s` that the capture reads, each with the value
that the capture reads for it. -/
structure tcb_s where
  pid : Int
  name : List Nat
  adj_stack_ptr : Nat
  adj_stack_size : Nat

/-- The machine at the time of the fault. -/
structure Machine where
  /-- The pointer `CURRENT_REGS` as the capture reads it; `0` is `NULL`. -/
  CURRENT_REGS : Nat
  /-- The `stack_word_t` (a 32-bit word) that memory holds at a byte address
  when `board_crashdump` is entered. -/
  mem : Nat → Nat
  /-- Whether the word at a byte address overlaps the record at `&_sdata`. -/
  inRecord : Nat → Bool
  /-- The word read at a byte address that overlaps the record at `&_sdata`, for
  given contents of the record. -/
  recordWord : fullcontext_s → Nat → Nat
  g_idle_topstack : Nat
  /-- The address `&g_intstackbase`. -/
  g_intstackbase : Nat
  /-- Result of `stm32_bbsram_savepanic` for a given record. -/
  stm32_bbsram_savepanic : fullcontext_s → Int

/-- The stack word read at a byte address while the record at `&_sdata` holds
`pdump`. -/
def Machine.load (m : Machine) (pdump : fullcontext_s) (a : Nat) : Nat :=
  if m.inRecord a then m.recordWord pdump a else m.mem a

/-- An array of the record while it is being filled: the words `written` so
far, followed by the words of `old` that are not overwritten yet. -/
def overwrite (written old : List Nat) : List Nat := written ++ old.drop written.length

/-! ## C string helpers -/

/-- The characters of a C string: the bytes before the first NUL. The memory
after the list is the terminating NUL. -/
def cstr (s : List Nat) : List Nat := s.takeWhile (fun b => b != 0)

/-- C `strlen`. -/
def strlen (s : List Nat) : Nat := (cstr s).length

/-- C `strncpy(dest, src, n)`: the `n` bytes written to `dest`. At most `n`
characters of `src` are copied and the remainder is filled with NULs. -/
def strncpy (src : List Nat) (n : Nat) : List Nat :=
  (cstr src).take n ++ List.replicate (n - ((cstr src).take n).length) 0

/-! ## `copy_reverse` and `memcpy` -/

/-- Source: `while (size--) { *dest++ = *src--; }`. `dest` holds the words
written so far and the result is `dest` with the copied words added; `src` is
a byte address that steps down one word; `read dest src` is the word that RAM
holds at `src` once the words `dest` are written. -/
def copy_reverse (read : List Nat → Nat → Nat) : List Nat → Nat → Nat → List Nat
  | dest, _, 0 => dest
  | dest, src, size + 1 => copy_reverse read (dest ++ [read dest src]) (usub32 src WORD) size

/-- C `memcpy` of `n` words, as a copy word by word at ascending addresses; the
arguments are those of `copy_reverse`. (When source and destination overlap
the C standard leaves the result of `memcpy` open.) -/
def memcpyWords (read : List Nat → Nat → Nat) : List Nat → Nat → Nat → List Nat
  | dest, _, 0 => dest
  | dest, src, n + 1 => memcpyWords read (dest ++ [read dest src]) (u32 (src + WORD)) n

/-! ## `board_crashdump` -/

/-- The record after `memset(pdump, 0, sizeof(fullcontext_s))`. -/
def zeroed (cfg : Config) : fullcontext_s :=
  { flags := 0, current_regs := 0, lineno := 0, pid := 0
    regs := List.replicate cfg.XCPTCONTEXT_REGS 0
    user := ⟨0, 0, 0⟩
    interrupt := ⟨0, 0, 0⟩
    name := List.replicate (cfg.CONFIG_TASK_NAME_SIZE + 1) 0
    filename := List.replicate cfg.MAX_FILE_PATH_LENGTH 0
    istack := List.replicate cfg.istackWords 0
    ustack := List.replicate cfg.ustackWords 0 }

/-- Lines 447-457: the bytes stored in `filename`. On the 32-bit target
`&filename[offset]` is the address `filename + offset` whatever the sign that
the conversion of `offset` to `int` gives it. -/
def saveFilename (cfg : Config) (filename : Option (List Nat)) (old : List Nat) : List Nat :=
  match filename with
  | none => old
  | some f =>
    let len := u32 (strlen f + 1)
    let offset := if len > cfg.MAX_FILE_PATH_LENGTH then usub32 len cfg.MAX_FILE_PATH_LENGTH else 0
    strncpy (f.drop offset) cfg.MAX_FILE_PATH_LENGTH

/-- Lines 445-474: source location, `current_regs`, task name and pid. -/
def saveInfo (cfg : Config) (m : Machine) (rtcb : tcb_s) (filename : Option (List Nat))
    (lineno : Int) (pdump : fullcontext_s) : fullcontext_s :=
  let pdump := { pdump with lineno := lineno }
  let pdump := { pdump with filename := saveFilename cfg filename pdump.filename }
  let pdump := { pdump with current_regs := u32 m.CURRENT_REGS }
  let pdump :=
    if cfg.CONFIG_TASK_NAME_SIZE > 0 then
      { pdump with name := strncpy rtcb.name cfg.CONFIG_TASK_NAME_SIZE ++ [0] }
    else pdump
  { pdump with pid := rtcb.pid }

/-- Lines 482-495: the context branch on `CURRENT_REGS`. -/
def saveContext (cfg : Config) (m : Machine) (currentsp : Nat) (pdump : fullcontext_s) :
    fullcontext_s :=
  if u32 m.CURRENT_REGS != 0 then
    let pdump := { pdump with interrupt.sp := u32 currentsp }
    let pdump := { pdump with
      flags := pdump.flags ||| (eRegsPresent ||| eUserStackPresent ||| eIntStackPresent) }
    let pdump := { pdump with
      regs := memcpyWords
        (fun written a => m.load { pdump with regs := overwrite written pdump.regs } a)
        [] (u32 m.CURRENT_REGS) cfg.XCPTCONTEXT_REGS }
    { pdump with user.sp := pdump.regs.getD cfg.REG_R13 0 }
  else
    let pdump := { pdump with flags := pdump.flags ||| eUserStackPresent }
    { pdump with user.sp := u32 currentsp }

/-- Lines 497-505: the limits of the user stack. -/
def userLimits (cfg : Config) (m : Machine) (rtcb : tcb_s) (pdump : fullcontext_s) :
    fullcontext_s :=
  if pdump.pid = 0 then
    let pdump := { pdump with user.top := usub32 m.g_idle_topstack 4 }
    { pdump with user.size := u32 cfg.CONFIG_IDLETHREAD_STACKSIZE }
  else
    let pdump := { pdump with user.top := u32 rtcb.adj_stack_ptr }
    { pdump with user.size := u32 rtcb.adj_stack_size }

/-- The C test `sp <= top && sp > top - size` on `uint32_t` fields. -/
def inWindow (s : stack_s) : Bool :=
  decide (s.sp ≤ s.top) && decide (s.sp > usub32 s.top s.size)

/-- Lines 507-530: the interrupt stack, compiled in when
`CONFIG_ARCH_INTERRUPTSTACK > 3`. `~3` is the 32-bit mask `0xFFFFFFFC`. -/
def interruptStack (cfg : Config) (m : Machine) (pdump : fullcontext_s) : fullcontext_s :=
  if cfg.CONFIG_ARCH_INTERRUPTSTACK > 3 then
    let pdump := { pdump with interrupt.top := u32 m.g_intstackbase }
    let pdump := { pdump with
      interrupt.size := u32 (cfg.CONFIG_ARCH_INTERRUPTSTACK &&& 0xFFFFFFFC) }
    let pdump :=
      if hasFlag pdump.flags eIntStackPresent then
        let ps := pdump.interrupt.sp
        { pdump with
          istack := copy_reverse
            (fun written a => m.load { pdump with istack := overwrite written pdump.istack } a)
            [] (wordIndex ps (cfg.istackWords / 2)) cfg.istackWords }
      else pdump
    if !(inWindow pdump.interrupt) then
      { pdump with flags := pdump.flags ||| eInvalidIntStackPrt }
    else pdump
  else pdump

/-- Lines 532-545: the user stack. -/
def userStack (cfg : Config) (m : Machine) (pdump : fullcontext_s) : fullcontext_s :=
  let pdump :=
    if hasFlag pdump.flags eUserStackPresent then
      let ps := pdump.user.sp
      { pdump with
        ustack := copy_reverse
          (fun written a => m.load { pdump with ustack := overwrite written pdump.ustack } a)
          [] (wordIndex ps (cfg.ustackWords / 2)) cfg.ustackWords }
    else pdump
  if !(inWindow pdump.user) then
    { pdump with flags := pdump.flags ||| eInvalidUserStackPtr }
  else pdump

/-- Lines 433-545: the record built by `board_crashdump`. -/
def capture (cfg : Config) (m : Machine) (currentsp : Nat) (rtcb : tcb_s)
    (filename : Option (List Nat)) (lineno : Int) : fullcontext_s :=
  let pdump := zeroed cfg
  let pdump := saveInfo cfg m rtcb filename lineno pdump
  let pdump := saveContext cfg m currentsp pdump
  let pdump := userLimits cfg m rtcb pdump
  let pdump := interruptStack cfg m pdump
  userStack cfg m pdump

/-- The text written when the dump memory was wiped. -/
def dead : String := "Memory wiped - dump not saved!"

/-- Lines 549-563: the characters passed to `up_lowputc` for a save result. -/
def reportSave (rv : Int) : List Char :=
  if rv = - ENXIO then dead.toList
  else if rv = - ENOSPC then ['!']
  else []

/-- Everything `board_crashdump` does that is visible outside of it. -/
structure CrashResult where
  /-- The record left at `pdump`. -/
  dump : fullcontext_s
  /-- The records handed to `stm32_bbsram_savepanic`, one per call, in order. -/
  savepanic : List fullcontext_s
  /-- The characters handed to `up_lowputc`, in order. -/
  lowputc : List Char
  /-- Whether `px4_systemreset` was called. -/
  reset : Bool

/-- Source: `board_crashdump(currentsp, tcb, filename, lineno)`. A null
`filename` is `none`. -/
def board_crashdump (cfg : Config) (m : Machine) (currentsp : Nat) (rtcb : tcb_s)
    (filename : Option (List Nat)) (lineno : Int) : CrashResult :=
  let pdump := capture cfg m currentsp rtcb filename lineno
  let rv := m.stm32_bbsram_savepanic pdump
  { dump := pdump
    savepanic := [pdump]
    lowputc := reportSave rv
    reset := cfg.CONFIG_BOARD_RESET_ON_CRASH }

/-! ### The two stages of `flags`, for the proofs -/

/-- The value of `flags` after the context branch of lines 482-495, starting
from the zeroed record. -/
def contextFlags (m : Machine) : Nat :=
  if u32 m.CURRENT_REGS != 0 then
    0 ||| (eRegsPresent ||| eUserStackPresent ||| eIntStackPresent)
  else 0 ||| eUserStackPresent

/-- The value of `flags` at the end of the capture, from the value `cf` after the
context branch and the outcomes of the two window tests (lines 525-528 and
542-545). -/
def flagsFor (cf : Nat) (userOk intBad : Bool) : Nat :=
  if userOk = false then
    (if intBad = true then cf ||| eInvalidIntStackPrt else cf) ||| eInvalidUserStackPtr
  else
    (if intBad = true then cf ||| eInvalidIntStackPrt else cf)

/-! ## Boot-time hard-fault recovery (`board_app_initialize`, lines 275-369) -/

/-- The value `EOF` of `stdio.h`. -/
def EOF : Int := -1

/-- The `int` value of a character constant. -/
def ord (c : Char) : Int := c.toNat

/-- The three texts printed with `message(...)`. -/
inductive BootMessage
  /-- Line 279: a hard fault is logged. -/
  | logged
  /-- Line 301: the halt notice, with its `%d` and `%s` arguments. -/
  | halted (reboots : Int) (keyPress : Bool)
  /-- Line 354: the menu. -/
  | menu
  deriving DecidableEq, Repr

/-- The calls that the recovery step makes on its collaborators. -/
inductive Event
  | hardfault_check_status
  | hardfault_increment_reboot (reset : Bool)
  | hardfault_write
  | hardfault_rearm
  | ioctl_FIONREAD
  | getchar
  | putchar (c : Int)
  | message (text : BootMessage)
  | fflush
  deriving DecidableEq, Repr

/-- Whether an event is a call on the fault record store. -/
def Event.isStoreCall : Event → Bool
  | .hardfault_check_status => true
  | .hardfault_increment_reboot _ => true
  | .hardfault_write => true
  | .hardfault_rearm => true
  | _ => false

/-- The store calls of a log, in order. -/
def storeCalls (log : List Event) : List Event := log.filter Event.isStoreCall

/-- The fault record store as the boot code sees it: the functions of
`systemlib/hardfault_log.h` applied to the slot `"boot"`, each giving its
`int` result and the next store state. `hardfault_write` is always called with
`fileno(stdout)`, `HARDFAULT_DISPLAY_FORMAT` and `false`. -/
structure Store (σ : Type) where
  hardfault_check_status : σ → Int × σ
  hardfault_increment_reboot : Bool → σ → Int × σ
  hardfault_write : σ → Int × σ
  hardfault_rearm : σ → Int × σ

/-- The world of the boot code. -/
structure World (σ : Type) where
  store : σ
  /-- The results of the coming `getchar` calls, in order. -/
  stdin : List Int
  /-- The value `ioctl(FIONREAD)` stores in `bytesWaiting`. -/
  bytesWaiting : Int
  /-- The calls made so far, oldest first. -/
  log : List Event

/-- A run of the recovery code: the world reached, and whether the code ran to
its end (`false`: the loop was still running when the fuel ran out). -/
structure Run (σ : Type) where
  world : World σ
  finished : Bool

/-- Record an event. -/
def World.emit {σ : Type} (w : World σ) (e : Event) : World σ := { w with log := w.log ++ [e] }

/-- Call a store function: log the call and keep the new store state. -/
def World.call {σ : Type} (w : World σ) (e : Event) (f : σ → Int × σ) : Int × World σ :=
  ((f w.store).1, { w with store := (f w.store).2, log := w.log ++ [e] })

/-- `getchar()`: the next pending character, `EOF` when there is none. -/
def World.getchar {σ : Type} (w : World σ) : Int × World σ :=
  match w.stdin with
  | [] => (EOF, w.emit .getchar)
  | c :: cs => (c, { w with stdin := cs, log := w.log ++ [.getchar] })

/-- The labels `EOF`, `'\n'`, `'\r'`, `' '` of the outer switch. -/
def isIgnored (c : Int) : Bool :=
  c == EOF || c == ord '\n' || c == ord '\r' || c == ord ' '

/-- Lines 332-352: the inner switch. Gives the new value of `dbgContinue`. -/
def menuAction {σ : Type} (S : Store σ) (c : Int) (dbgContinue : Bool) (w : World σ) : Bool × World σ :=
  if c = ord 'D' ∨ c = ord 'd' then
    (dbgContinue, (w.call .hardfault_write S.hardfault_write).2)
  else if c = ord 'C' ∨ c = ord 'c' then
    let w := (w.call .hardfault_rearm S.hardfault_rearm).2
    (dbgContinue, (w.call (.hardfault_increment_reboot true) (S.hardfault_increment_reboot true)).2)
  else if c = ord 'B' ∨ c = ord 'b' then
    (true, w)
  else
    (dbgContinue, w)

/-- Lines 315-366: `while (!dbgContinue) { switch (c) ... }`. One unit of fuel
is one evaluation of the loop body. -/
def menuLoop {σ : Type} (S : Store σ) : Nat → Int → Bool → World σ → Run σ
  | 0, _, dbgContinue, w => ⟨w, dbgContinue⟩
  | fuel + 1, c, dbgContinue, w =>
    if dbgContinue then ⟨w, true⟩
    else if isIgnored c then
      -- `continue;`
      menuLoop S fuel c dbgContinue w
    else
      let w := (w.emit (.putchar c)).emit (.putchar (ord '\n'))
      let (dbgContinue, w) := menuAction S c dbgContinue w
      let w := (w.emit (.message .menu)).emit .fflush
      if !dbgContinue then
        let (c, w) := w.getchar
        menuLoop S fuel c dbgContinue w
      else
        menuLoop S fuel c dbgContinue w

/-- Lines 295-366: the branch taken when the system is halted. -/
def haltedBranch {σ : Type} (S : Store σ) (fuel : Nat) (reboots bytesWaiting : Int) (w : World σ) : Run σ :=
  let w := (w.call .hardfault_write S.hardfault_write).2
  let w := w.emit (.message (.halted reboots (bytesWaiting != 0)))
  menuLoop S fuel (ord '>') false w

/-- Lines 275-369 of `board_app_initialize`: the hard-fault recovery step. -/
def board_app_initialize {σ : Type} (S : Store σ) (fuel : Nat) (w : World σ) : Run σ :=
  let (hadCrash, w) := w.call .hardfault_check_status S.hardfault_check_status
  if hadCrash = OK then
    let w := w.emit (.message .logged)
    let (reboots, w) :=
      w.call (.hardfault_increment_reboot false) (S.hardfault_increment_reboot false)
    let bytesWaiting := w.bytesWaiting
    let w := w.emit .ioctl_FIONREAD
    if reboots > 2 ∨ bytesWaiting ≠ 0 then
      haltedBranch S fuel reboots bytesWaiting w
    else ⟨w, true⟩
  else ⟨w, true⟩

/-! ## The fault record store of the specification -/

/-- A fault slot: a presence marker and a reboot counter. -/
structure Slot where
  present : Bool
  rebootCount : Nat
  deriving DecidableEq, Repr

/-- The errno value reported for an absent slot. -/
def ENOENT : Int := 2

/-- Modelled from the spec: the Fault Record Store, whose implementation
(`systemlib/hardfault_log.c`) is not part of the sources at hand.
`readStatus` reports present (`OK`) or absent; `incrementRebootCount` adds one
to the counter, or resets it when asked to clear, and gives the stored count;
`dump` leaves the slot as it is; rearm clears the record of the slot and resets
its reboot counter. -/
def specStore : Store Slot where
  hardfault_check_status := fun s => (if s.present then OK else - ENOENT, s)
  hardfault_increment_reboot := fun reset s =>
    let count := if reset then 0 else s.rebootCount + 1
    ((count : Int), { s with rebootCount := count })
  hardfault_write := fun s => (if s.present then OK else - ENOENT, s)
  hardfault_rearm := fun _ => (OK, { present := false, rebootCount := 0 })

/-! ## The menu of the specification -/

/-- The characters `B` and `b`, which end the menu loop. -/
def isContinue (c : Int) : Bool := c == ord 'B' || c == ord 'b'

/-- The store calls that the specification gives for one menu character:
`D`/`d` dumps the slot once, `C`/`c` rearms the slot and then increments the
reboot counter with the clear option, any other character calls nothing. -/
def menuCalls (c : Int) : List Event :=
  if c = ord 'D' ∨ c = ord 'd' then [.hardfault_write]
  else if c = ord 'C' ∨ c = ord 'c' then [.hardfault_rearm, .hardfault_increment_reboot true]
  else []

/-- The store state after the calls `menuCalls c`. -/
def menuEffect {σ : Type} (S : Store σ) (s : σ) (c : Int) : σ :=
  if c = ord 'D' ∨ c = ord 'd' then (S.hardfault_write s).2
  else if c = ord 'C' ∨ c = ord 'c' then
    (S.hardfault_increment_reboot true (S.hardfault_rearm s).2).2
  else s

/-- Everything logged while one menu character is processed: its echo, its
store calls, the menu text and the flush. -/
def menuLog (c : Int) : List Event :=
  [.putchar c, .putchar (ord '\n')] ++ menuCalls c ++ [.message .menu, .fflush]

/-- The log of the recovery step up to its decision: the status query, the
notice, the increment of the reboot counter and the query for pending input. -/
def decisionLog : List Event :=
  [.hardfault_check_status, .message .logged, .hardfault_increment_reboot false,
   .ioctl_FIONREAD]

/-! ## The stack window of the specification -/

/-- A small configuration: an 8-byte file name field, three saved registers,
stack windows of four words. -/
def exampleConfig : Config :=
  { MAX_FILE_PATH_LENGTH := 8, CONFIG_TASK_NAME_SIZE := 4, XCPTCONTEXT_REGS := 3, REG_R13 := 0
    CONFIG_IDLETHREAD_STACKSIZE := 64, CONFIG_ARCH_INTERRUPTSTACK := 32
    istackWords := 4, ustackWords := 4, CONFIG_BOARD_RESET_ON_CRASH := false }

/-- The four bytes of a 32-bit word, lowest first. -/
def wordBytes (w : Nat) : List Nat :=
  [w % 256, w / 256 % 256, w / 65536 % 256, w / 16777216 % 256]

/-- The address of the record in the example machine. -/
def exampleBase : Nat := 0x2000

/-- The bytes of the record in the example machine, for the sizes of
`exampleConfig`: the words `flags`, `current_regs`, `lineno`, `pid` at the
offsets 0 to 12, `regs` at 16, the user stack at 28, the interrupt stack at 40,
the 5 bytes of `name` at 52, the 8 bytes of `filename` at 57, three bytes of
padding, `istack` at 68 and `ustack` at 84. -/
def exampleBytes (p : fullcontext_s) : List Nat :=
  wordBytes p.flags ++ wordBytes p.current_regs
    ++ wordBytes (p.lineno % 2 ^ 32).toNat ++ wordBytes (p.pid % 2 ^ 32).toNat
    ++ p.regs.flatMap wordBytes
    ++ wordBytes p.user.sp ++ wordBytes p.user.top ++ wordBytes p.user.size
    ++ wordBytes p.interrupt.sp ++ wordBytes p.interrupt.top ++ wordBytes p.interrupt.size
    ++ p.name ++ p.filename ++ [0, 0, 0]
    ++ p.istack.flatMap wordBytes ++ p.ustack.flatMap wordBytes

/-- The byte of the record at a byte address of the example machine; a byte
next to the record reads as 0. -/
def exampleByte (p : fullcontext_s) (a : Nat) : Nat :=
  if exampleBase ≤ a then (exampleBytes p).getD (a - exampleBase) 0 else 0

/-- A machine whose memory holds, at every address, the address itself, and
whose record lies in the 100 bytes from `exampleBase`. -/
def exampleMachine (current_regs : Nat) (rv : Int) : Machine :=
  { CURRENT_REGS := current_regs, mem := fun a => a
    inRecord := fun a => decide (exampleBase < a + 4 ∧ a < exampleBase + 100)
    recordWord := fun p a =>
      exampleByte p a + 256 * exampleByte p (a + 1) + 65536 * exampleByte p (a + 2)
        + 16777216 * exampleByte p (a + 3)
    g_idle_topstack := 1000
    g_intstackbase := 2000, stm32_bbsram_savepanic := fun _ => rv }

/-- A task with pid 1 whose control block gives a stack of `0x200` bytes below
the address `0x100`. -/
def exampleTcb : tcb_s :=
  { pid := 1, name := [65, 66], adj_stack_ptr := 0x100, adj_stack_size := 0x200 }

/-- A task with pid 1 and the stack `(0x800, 0x1000]`. -/
def taskTcb : tcb_s :=
  { pid := 1, name := [65, 66], adj_stack_ptr := 0x1000, adj_stack_size := 0x800 }

/-! ## Machine integers -/

/-- The wrapping subtraction is subtraction modulo `2 ^ 32`. -/
theorem usub32_eq_mod (a b : Nat) : usub32 a b = (u32 a + 2 ^ 32 - u32 b) % 2 ^ 32 := by
  unfold usub32 u32
  split <;> omega

/-! ## Field-by-field effect of each step of the capture -/

theorem saveInfo_flags (cfg : Config) (m : Machine) (rtcb : tcb_s) (fn : Option (List Nat))
    (ln : Int) (p : fullcontext_s) : (saveInfo cfg m rtcb fn ln p).flags = p.flags := by
  unfold saveInfo; split <;> rfl

theorem saveInfo_user (cfg : Config) (m : Machine) (rtcb : tcb_s) (fn : Option (List Nat))
    (ln : Int) (p : fullcontext_s) : (saveInfo cfg m rtcb fn ln p).user = p.user := by
  unfold saveInfo; split <;> rfl

theorem saveInfo_interrupt (cfg : Config) (m : Machine) (rtcb : tcb_s) (fn : Option (List Nat))
    (ln : Int) (p : fullcontext_s) : (saveInfo cfg m rtcb fn ln p).interrupt = p.interrupt := by
  unfold saveInfo; split <;> rfl

theorem saveInfo_istack (cfg : Config) (m : Machine) (rtcb : tcb_s) (fn : Option (List Nat))
    (ln : Int) (p : fullcontext_s) : (saveInfo cfg m rtcb fn ln p).istack = p.istack := by
  unfold saveInfo; split <;> rfl

theorem saveInfo_ustack (cfg : Config) (m : Machine) (rtcb : tcb_s) (fn : Option (List Nat))
    (ln : Int) (p : fullcontext_s) : (saveInfo cfg m rtcb fn ln p).ustack = p.ustack := by
  unfold saveInfo; split <;> rfl

theorem saveInfo_pid (cfg : Config) (m : Machine) (rtcb : tcb_s) (fn : Option (List Nat))
    (ln : Int) (p : fullcontext_s) : (saveInfo cfg m rtcb fn ln p).pid = rtcb.pid := by
  unfold saveInfo; split <;> rfl

theorem saveInfo_filename (cfg : Config) (m : Machine) (rtcb : tcb_s) (fn : Option (List Nat))
    (ln : Int) (p : fullcontext_s) :
    (saveInfo cfg m rtcb fn ln p).filename = saveFilename cfg fn p.filename := by
  unfold saveInfo; split <;> rfl

theorem saveContext_flags (cfg : Config) (m : Machine) (sp : Nat) (p : fullcontext_s) :
    (saveContext cfg m sp p).flags =
      if u32 m.CURRENT_REGS != 0 then
        p.flags ||| (eRegsPresent ||| eUserStackPresent ||| eIntStackPresent)
      else p.flags ||| eUserStackPresent := by
  unfold saveContext; split <;> rfl

theorem saveContext_user (cfg : Config) (m : Machine) (sp : Nat) (p : fullcontext_s) :
    (saveContext cfg m sp p).user =
      { sp := if u32 m.CURRENT_REGS != 0 then (saveContext cfg m sp p).regs.getD cfg.REG_R13 0
              else u32 sp
        top := p.user.top
        size := p.user.size } := by
  unfold saveContext; split <;> rfl

theorem saveContext_interrupt (cfg : Config) (m : Machine) (sp : Nat) (p : fullcontext_s) :
    (saveContext cfg m sp p).interrupt =
      { sp := if u32 m.CURRENT_REGS != 0 then u32 sp else p.interrupt.sp
        top := p.interrupt.top
        size := p.interrupt.size } := by
  unfold saveContext; split <;> rfl

theorem saveContext_pid (cfg : Config) (m : Machine) (sp : Nat) (p : fullcontext_s) :
    (saveContext cfg m sp p).pid = p.pid := by
  unfold saveContext; split <;> rfl

theorem saveContext_filename (cfg : Config) (m : Machine) (sp : Nat) (p : fullcontext_s) :
    (saveContext cfg m sp p).filename = p.filename := by
  unfold saveContext; split <;> rfl

theorem saveContext_istack (cfg : Config) (m : Machine) (sp : Nat) (p : fullcontext_s) :
    (saveContext cfg m sp p).istack = p.istack := by
  unfold saveContext; split <;> rfl

theorem saveContext_ustack (cfg : Config) (m : Machine) (sp : Nat) (p : fullcontext_s) :
    (saveContext cfg m sp p).ustack = p.ustack := by
  unfold saveContext; split <;> rfl

theorem userLimits_flags (cfg : Config) (m : Machine) (rtcb : tcb_s) (p : fullcontext_s) :
    (userLimits cfg m rtcb p).flags = p.flags := by
  unfold userLimits; split <;> rfl

theorem userLimits_regs (cfg : Config) (m : Machine) (rtcb : tcb_s) (p : fullcontext_s) :
    (userLimits cfg m rtcb p).regs = p.regs := by
  unfold userLimits; split <;> rfl

theorem userLimits_user (cfg : Config) (m : Machine) (rtcb : tcb_s) (p : fullcontext_s) :
    (userLimits cfg m rtcb p).user =
      { sp := p.user.sp
        top := if p.pid = 0 then usub32 m.g_idle_topstack 4 else u32 rtcb.adj_stack_ptr
        size := if p.pid = 0 then u32 cfg.CONFIG_IDLETHREAD_STACKSIZE
                else u32 rtcb.adj_stack_size } := by
  unfold userLimits; split <;> rfl

theorem userLimits_interrupt (cfg : Config) (m : Machine) (rtcb : tcb_s) (p : fullcontext_s) :
    (userLimits cfg m rtcb p).interrupt = p.interrupt := by
  unfold userLimits; split <;> rfl

theorem userLimits_filename (cfg : Config) (m : Machine) (rtcb : tcb_s) (p : fullcontext_s) :
    (userLimits cfg m rtcb p).filename = p.filename := by
  unfold userLimits; split <;> rfl

theorem userLimits_istack (cfg : Config) (m : Machine) (rtcb : tcb_s) (p : fullcontext_s) :
    (userLimits cfg m rtcb p).istack = p.istack := by
  unfold userLimits; split <;> rfl

theorem userLimits_ustack (cfg : Config) (m : Machine) (rtcb : tcb_s) (p : fullcontext_s) :
    (userLimits cfg m rtcb p).ustack = p.ustack := by
  unfold userLimits; split <;> rfl
theorem interruptStack_interrupt (cfg : Config) (m : Machine) (p : fullcontext_s) :
    (interruptStack cfg m p).interrupt =
      if cfg.CONFIG_ARCH_INTERRUPTSTACK > 3 then
        { sp := p.interrupt.sp
          top := u32 m.g_intstackbase
          size := u32 (cfg.CONFIG_ARCH_INTERRUPTSTACK &&& 0xFFFFFFFC) }
      else p.interrupt := by
  unfold interruptStack
  split
  · dsimp only
    split <;> split <;> rfl
  · rfl

theorem interruptStack_flags (cfg : Config) (m : Machine) (p : fullcontext_s) :
    (interruptStack cfg m p).flags =
      if cfg.CONFIG_ARCH_INTERRUPTSTACK > 3 ∧
          inWindow (interruptStack cfg m p).interrupt = false then
        p.flags ||| eInvalidIntStackPrt
      else p.flags := by
  rw [interruptStack_interrupt]
  unfold interruptStack
  by_cases h : cfg.CONFIG_ARCH_INTERRUPTSTACK > 3
  · simp only [h, if_true, true_and]
    split <;> split <;> simp_all
  · simp only [h, if_false, false_and]

theorem interruptStack_regs (cfg : Config) (m : Machine) (p : fullcontext_s) :
    (interruptStack cfg m p).regs = p.regs := by
  unfold interruptStack
  split
  · dsimp only
    split <;> split <;> rfl
  · rfl

theorem interruptStack_user (cfg : Config) (m : Machine) (p : fullcontext_s) :
    (interruptStack cfg m p).user = p.user := by
  unfold interruptStack
  split
  · dsimp only
    split <;> split <;> rfl
  · rfl

theorem interruptStack_filename (cfg : Config) (m : Machine) (p : fullcontext_s) :
    (interruptStack cfg m p).filename = p.filename := by
  unfold interruptStack
  split
  · dsimp only
    split <;> split <;> rfl
  · rfl

theorem interruptStack_ustack (cfg : Config) (m : Machine) (p : fullcontext_s) :
    (interruptStack cfg m p).ustack = p.ustack := by
  unfold interruptStack
  split
  · dsimp only
    split <;> split <;> rfl
  · rfl

theorem interruptStack_istack (cfg : Config) (m : Machine) (p : fullcontext_s) :
    ∃ g : List Nat → fullcontext_s,
      (interruptStack cfg m p).istack =
        if cfg.CONFIG_ARCH_INTERRUPTSTACK > 3 ∧ hasFlag p.flags eIntStackPresent = true then
          copy_reverse (fun written a => m.load (g written) a) []
            (wordIndex p.interrupt.sp (cfg.istackWords / 2)) cfg.istackWords
        else p.istack := by
  unfold interruptStack
  by_cases h : cfg.CONFIG_ARCH_INTERRUPTSTACK > 3
  · by_cases h2 : hasFlag p.flags eIntStackPresent = true
    · refine ⟨fun written =>
        { ({ ({ p with interrupt.top := u32 m.g_intstackbase } : fullcontext_s) with
              interrupt.size := u32 (cfg.CONFIG_ARCH_INTERRUPTSTACK &&& 0xFFFFFFFC) }
            : fullcontext_s) with
          istack := overwrite written p.istack }, ?_⟩
      simp only [h, h2, and_self, if_true, apply_ite fullcontext_s.istack, ite_self]
    · refine ⟨fun _ => p, ?_⟩
      simp only [h, h2, and_false, if_true, if_false, apply_ite fullcontext_s.istack, ite_self,
        Bool.false_eq_true]
  · refine ⟨fun _ => p, ?_⟩
    simp only [h, false_and, if_false]

theorem userStack_user (cfg : Config) (m : Machine) (p : fullcontext_s) :
    (userStack cfg m p).user = p.user := by
  unfold userStack
  dsimp only
  split <;> split <;> rfl

theorem userStack_flags (cfg : Config) (m : Machine) (p : fullcontext_s) :
    (userStack cfg m p).flags =
      if inWindow p.user = false then p.flags ||| eInvalidUserStackPtr else p.flags := by
  unfold userStack
  dsimp only
  split <;> split <;> simp_all

theorem userStack_regs (cfg : Config) (m : Machine) (p : fullcontext_s) :
    (userStack cfg m p).regs = p.regs := by
  unfold userStack
  dsimp only
  split <;> split <;> rfl

theorem userStack_interrupt (cfg : Config) (m : Machine) (p : fullcontext_s) :
    (userStack cfg m p).interrupt = p.interrupt := by
  unfold userStack
  dsimp only
  split <;> split <;> rfl

theorem userStack_filename (cfg : Config) (m : Machine) (p : fullcontext_s) :
    (userStack cfg m p).filename = p.filename := by
  unfold userStack
  dsimp only
  split <;> split <;> rfl

theorem userStack_istack (cfg : Config) (m : Machine) (p : fullcontext_s) :
    (userStack cfg m p).istack = p.istack := by
  unfold userStack
  dsimp only
  split <;> split <;> rfl

theorem capture_user (cfg : Config) (m : Machine) (sp : Nat) (rtcb : tcb_s)
    (fn : Option (List Nat)) (ln : Int) :
    (capture cfg m sp rtcb fn ln).user =
      { sp := if u32 m.CURRENT_REGS != 0 then
                (capture cfg m sp rtcb fn ln).regs.getD cfg.REG_R13 0
              else u32 sp
        top := if rtcb.pid = 0 then usub32 m.g_idle_topstack 4 else u32 rtcb.adj_stack_ptr
        size := if rtcb.pid = 0 then u32 cfg.CONFIG_IDLETHREAD_STACKSIZE
                else u32 rtcb.adj_stack_size } := by
  unfold capture
  simp only [userStack_user, interruptStack_user, userLimits_user, saveContext_user,
    saveContext_pid, saveInfo_pid, userStack_regs, interruptStack_regs, userLimits_regs]

theorem capture_interrupt (cfg : Config) (m : Machine) (sp : Nat) (rtcb : tcb_s)
    (fn : Option (List Nat)) (ln : Int) :
    (capture cfg m sp rtcb fn ln).interrupt =
      if cfg.CONFIG_ARCH_INTERRUPTSTACK > 3 then
        { sp := if u32 m.CURRENT_REGS != 0 then u32 sp else 0
          top := u32 m.g_intstackbase
          size := u32 (cfg.CONFIG_ARCH_INTERRUPTSTACK &&& 0xFFFFFFFC) }
      else
        { sp := if u32 m.CURRENT_REGS != 0 then u32 sp else 0, top := 0, size := 0 } := by
  unfold capture
  simp only [userStack_interrupt, interruptStack_interrupt, userLimits_interrupt,
    saveContext_interrupt, saveInfo_interrupt]
  rfl

theorem capture_filename (cfg : Config) (m : Machine) (sp : Nat) (rtcb : tcb_s)
    (fn : Option (List Nat)) (ln : Int) :
    (capture cfg m sp rtcb fn ln).filename =
      saveFilename cfg fn (List.replicate cfg.MAX_FILE_PATH_LENGTH 0) := by
  unfold capture
  simp only [userStack_filename, interruptStack_filename, userLimits_filename,
    saveContext_filename, saveInfo_filename]
  rfl

theorem capture_flags (cfg : Config) (m : Machine) (sp : Nat) (rtcb : tcb_s)
    (fn : Option (List Nat)) (ln : Int) :
    (capture cfg m sp rtcb fn ln).flags =
      (if inWindow (capture cfg m sp rtcb fn ln).user = false then
        (if cfg.CONFIG_ARCH_INTERRUPTSTACK > 3 ∧
            inWindow (capture cfg m sp rtcb fn ln).interrupt = false then
          contextFlags m ||| eInvalidIntStackPrt
        else contextFlags m) ||| eInvalidUserStackPtr
      else
        (if cfg.CONFIG_ARCH_INTERRUPTSTACK > 3 ∧
            inWindow (capture cfg m sp rtcb fn ln).interrupt = false then
          contextFlags m ||| eInvalidIntStackPrt
        else contextFlags m)) := by
  unfold capture
  simp only [userStack_flags, interruptStack_flags, userLimits_flags, saveContext_flags,
    saveInfo_flags, userStack_user, interruptStack_user, userStack_interrupt]
  rfl

theorem contextFlags_user (m : Machine) :
    hasFlag (contextFlags m) eUserStackPresent = true := by
  unfold contextFlags
  split <;> decide

theorem contextFlags_int (m : Machine) :
    hasFlag (contextFlags m) eIntStackPresent = (u32 m.CURRENT_REGS != 0) := by
  unfold contextFlags
  split
  · next h => rw [h]; decide
  · next h => rw [Bool.not_eq_true] at h; rw [h]; decide

theorem contextFlags_regs (m : Machine) :
    hasFlag (contextFlags m) eRegsPresent = (u32 m.CURRENT_REGS != 0) := by
  unfold contextFlags
  split
  · next h => rw [h]; decide
  · next h => rw [Bool.not_eq_true] at h; rw [h]; decide

theorem contextFlags_cases (m : Machine) : contextFlags m = 7 ∨ contextFlags m = 2 := by
  unfold contextFlags
  split
  · left; decide
  · right; decide

theorem capture_istack (cfg : Config) (m : Machine) (sp : Nat) (rtcb : tcb_s)
    (fn : Option (List Nat)) (ln : Int) :
    ∃ g : List Nat → fullcontext_s,
      (capture cfg m sp rtcb fn ln).istack =
        if cfg.CONFIG_ARCH_INTERRUPTSTACK > 3 ∧ (u32 m.CURRENT_REGS != 0) = true then
          copy_reverse (fun written a => m.load (g written) a) []
            (wordIndex (capture cfg m sp rtcb fn ln).interrupt.sp (cfg.istackWords / 2))
            cfg.istackWords
        else List.replicate cfg.istackWords 0 := by
  have hc : (capture cfg m sp rtcb fn ln).interrupt.sp =
      if u32 m.CURRENT_REGS != 0 then u32 sp else 0 := by
    rw [capture_interrupt]; split <;> rfl
  rw [hc]
  unfold capture
  obtain ⟨g, hg⟩ := interruptStack_istack cfg m
    (userLimits cfg m rtcb (saveContext cfg m sp (saveInfo cfg m rtcb fn ln (zeroed cfg))))
  refine ⟨g, ?_⟩
  simp only [userStack_istack]
  rw [hg]
  simp only [userLimits_flags, saveContext_flags, saveInfo_flags, userLimits_interrupt,
    saveContext_interrupt, saveInfo_interrupt, userLimits_istack, saveContext_istack,
    saveInfo_istack]
  have hz : (zeroed cfg).flags = 0 := rfl
  have hi : (zeroed cfg).istack = List.replicate cfg.istackWords 0 := rfl
  have hs : (zeroed cfg).interrupt.sp = 0 := rfl
  rw [hz, hi, hs]
  have := contextFlags_int m
  unfold contextFlags at this
  rw [this]

/-! ## Flags of the captured record -/

theorem capture_flags_eq (cfg : Config) (m : Machine) (sp : Nat) (rtcb : tcb_s)
    (fn : Option (List Nat)) (ln : Int) :
    (capture cfg m sp rtcb fn ln).flags =
      flagsFor (contextFlags m) (inWindow (capture cfg m sp rtcb fn ln).user)
        (decide (cfg.CONFIG_ARCH_INTERRUPTSTACK > 3) &&
          !(inWindow (capture cfg m sp rtcb fn ln).interrupt)) := by
  rw [capture_flags]
  unfold flagsFor
  simp only [Bool.and_eq_true, decide_eq_true_eq, Bool.not_eq_true']

theorem flagsFor_spec (cf : Nat) (hcf : cf = 7 ∨ cf = 2) (a b : Bool) :
    hasFlag (flagsFor cf a b) eInvalidUserStackPtr = !a ∧
    hasFlag (flagsFor cf a b) eInvalidIntStackPrt = b ∧
    hasFlag (flagsFor cf a b) eRegsPresent = hasFlag cf eRegsPresent ∧
    hasFlag (flagsFor cf a b) eUserStackPresent = hasFlag cf eUserStackPresent ∧
    hasFlag (flagsFor cf a b) eIntStackPresent = hasFlag cf eIntStackPresent := by
  rcases hcf with rfl | rfl <;> cases a <;> cases b <;> decide

theorem capture_presence (cfg : Config) (m : Machine) (sp : Nat) (rtcb : tcb_s)
    (fn : Option (List Nat)) (ln : Int) :
    hasFlag (capture cfg m sp rtcb fn ln).flags eRegsPresent = (u32 m.CURRENT_REGS != 0) ∧
    hasFlag (capture cfg m sp rtcb fn ln).flags eUserStackPresent = true ∧
    hasFlag (capture cfg m sp rtcb fn ln).flags eIntStackPresent = (u32 m.CURRENT_REGS != 0) := by
  rw [capture_flags_eq]
  have h := flagsFor_spec (contextFlags m) (contextFlags_cases m)
    (inWindow (capture cfg m sp rtcb fn ln).user)
    (decide (cfg.CONFIG_ARCH_INTERRUPTSTACK > 3) &&
      !(inWindow (capture cfg m sp rtcb fn ln).interrupt))
  rw [h.2.2.1, h.2.2.2.1, h.2.2.2.2, contextFlags_regs, contextFlags_user, contextFlags_int]
  exact ⟨rfl, rfl, rfl⟩

theorem capture_invalid_user (cfg : Config) (m : Machine) (sp : Nat) (rtcb : tcb_s)
    (fn : Option (List Nat)) (ln : Int) :
    hasFlag (capture cfg m sp rtcb fn ln).flags eInvalidUserStackPtr =
      !(inWindow (capture cfg m sp rtcb fn ln).user) := by
  rw [capture_flags_eq]
  exact (flagsFor_spec _ (contextFlags_cases m) _ _).1

theorem capture_invalid_int (cfg : Config) (m : Machine) (sp : Nat) (rtcb : tcb_s)
    (fn : Option (List Nat)) (ln : Int) :
    hasFlag (capture cfg m sp rtcb fn ln).flags eInvalidIntStackPrt =
      (decide (cfg.CONFIG_ARCH_INTERRUPTSTACK > 3) &&
        !(inWindow (capture cfg m sp rtcb fn ln).interrupt)) := by
  rw [capture_flags_eq]
  exact (flagsFor_spec _ (contextFlags_cases m) _ _).2.1

/-- The window test of the code, as a proposition. -/
theorem inWindow_iff (s : stack_s) :
    inWindow s = true ↔ s.sp ≤ s.top ∧ usub32 s.top s.size < s.sp := by
  unfold inWindow
  simp only [Bool.and_eq_true, decide_eq_true_eq, gt_iff_lt]

/-- Without wrap-around the test of the code is the test on the integers. -/
theorem usub32_of_le (top size : Nat) (ht : top < 2 ^ 32) (h : size ≤ top) :
    usub32 top size = top - size := by
  unfold usub32 u32
  split <;> omega

/-- With wrap-around the wrapped difference lies above `top`. -/
theorem usub32_of_lt (top size : Nat) (ht : top < 2 ^ 32) (hs : size < 2 ^ 32)
    (h : top < size) : top < usub32 top size := by
  unfold usub32 u32
  split <;> omega

theorem u32_lt (x : Nat) : u32 x < 2 ^ 32 := by
  unfold u32; omega

theorem usub32_lt (a b : Nat) : usub32 a b < 2 ^ 32 := by
  unfold usub32 u32; split <;> omega

theorem capture_user_bounds (cfg : Config) (m : Machine) (sp : Nat) (rtcb : tcb_s)
    (fn : Option (List Nat)) (ln : Int) :
    (capture cfg m sp rtcb fn ln).user.top < 2 ^ 32 ∧
    (capture cfg m sp rtcb fn ln).user.size < 2 ^ 32 := by
  rw [capture_user]
  constructor
  · show (if rtcb.pid = 0 then usub32 m.g_idle_topstack 4 else u32 rtcb.adj_stack_ptr) < 2 ^ 32
    split
    · exact usub32_lt _ _
    · exact u32_lt _
  · show (if rtcb.pid = 0 then u32 cfg.CONFIG_IDLETHREAD_STACKSIZE
      else u32 rtcb.adj_stack_size) < 2 ^ 32
    split <;> exact u32_lt _

theorem capture_interrupt_bounds (cfg : Config) (m : Machine) (sp : Nat) (rtcb : tcb_s)
    (fn : Option (List Nat)) (ln : Int) :
    (capture cfg m sp rtcb fn ln).interrupt.top < 2 ^ 32 ∧
    (capture cfg m sp rtcb fn ln).interrupt.size < 2 ^ 32 := by
  rw [capture_interrupt]
  split
  · exact ⟨u32_lt _, u32_lt _⟩
  · constructor <;> (show (0 : Nat) < 2 ^ 32) <;> decide

/-! ## Words copied out of RAM -/

/-- C1 (amended): the recorded limits are those of the task (or of the idle
thread when pid is 0) and of the interrupt stack, and each invalid flag is set
exactly when the recorded stack pointer fails the test `sp <= top && sp > top - size`
in which `top - size` is a 32-bit unsigned difference. When `size <= top` this is
the test that `sp` lies outside the integer interval `(top - size, top]`; when
`size > top` the difference wraps and the flag is set for every `sp`. -/
theorem crashdump_invalid_flags (cfg : Config) (m : Machine) (currentsp : Nat) (rtcb : tcb_s)
    (filename : Option (List Nat)) (lineno : Int) :
    let r := (board_crashdump cfg m currentsp rtcb filename lineno).dump
    (r.user.top = if rtcb.pid = 0 then usub32 m.g_idle_topstack 4 else u32 rtcb.adj_stack_ptr) ∧
    (r.user.size = if rtcb.pid = 0 then u32 cfg.CONFIG_IDLETHREAD_STACKSIZE
      else u32 rtcb.adj_stack_size) ∧
    (3 < cfg.CONFIG_ARCH_INTERRUPTSTACK →
      r.interrupt.top = u32 m.g_intstackbase ∧
      r.interrupt.size = u32 (cfg.CONFIG_ARCH_INTERRUPTSTACK &&& 0xFFFFFFFC)) ∧
    (hasFlag r.flags eInvalidUserStackPtr = true ↔
      ¬ (r.user.sp ≤ r.user.top ∧ usub32 r.user.top r.user.size < r.user.sp)) ∧
    (3 < cfg.CONFIG_ARCH_INTERRUPTSTACK →
      (hasFlag r.flags eInvalidIntStackPrt = true ↔
        ¬ (r.interrupt.sp ≤ r.interrupt.top ∧
            usub32 r.interrupt.top r.interrupt.size < r.interrupt.sp))) ∧
    (r.user.size ≤ r.user.top →
      (hasFlag r.flags eInvalidUserStackPtr = true ↔
        ¬ ((r.user.top : Int) - r.user.size < r.user.sp ∧ (r.user.sp : Int) ≤ r.user.top))) ∧
    (3 < cfg.CONFIG_ARCH_INTERRUPTSTACK → r.interrupt.size ≤ r.interrupt.top →
      (hasFlag r.flags eInvalidIntStackPrt = true ↔
        ¬ ((r.interrupt.top : Int) - r.interrupt.size < r.interrupt.sp ∧
            (r.interrupt.sp : Int) ≤ r.interrupt.top))) ∧
    (r.user.top < r.user.size → hasFlag r.flags eInvalidUserStackPtr = true) ∧
    (3 < cfg.CONFIG_ARCH_INTERRUPTSTACK → r.interrupt.top < r.interrupt.size →
      hasFlag r.flags eInvalidIntStackPrt = true) := by
  intro r
  have hu : hasFlag r.flags eInvalidUserStackPtr = true ↔
      ¬ (r.user.sp ≤ r.user.top ∧ usub32 r.user.top r.user.size < r.user.sp) := by
    show hasFlag (capture cfg m currentsp rtcb filename lineno).flags eInvalidUserStackPtr = true ↔ _
    rw [capture_invalid_user, Bool.not_eq_true', ← inWindow_iff, Bool.not_eq_true]
    exact Iff.rfl
  have hi : 3 < cfg.CONFIG_ARCH_INTERRUPTSTACK →
      (hasFlag r.flags eInvalidIntStackPrt = true ↔
        ¬ (r.interrupt.sp ≤ r.interrupt.top ∧
            usub32 r.interrupt.top r.interrupt.size < r.interrupt.sp)) := by
    intro hc
    show hasFlag (capture cfg m currentsp rtcb filename lineno).flags eInvalidIntStackPrt = true ↔ _
    rw [capture_invalid_int, ← inWindow_iff, Bool.not_eq_true]
    simp only [gt_iff_lt, hc, decide_True, Bool.true_and, Bool.not_eq_true']
    exact Iff.rfl
  have hub := capture_user_bounds cfg m currentsp rtcb filename lineno
  have hib := capture_interrupt_bounds cfg m currentsp rtcb filename lineno
  have hut : r.user.top < 2 ^ 32 := hub.1
  have hus : r.user.size < 2 ^ 32 := hub.2
  have hit : r.interrupt.top < 2 ^ 32 := hib.1
  have his : r.interrupt.size < 2 ^ 32 := hib.2
  refine ⟨?_, ?_, ?_, hu, hi, ?_, ?_, ?_, ?_⟩
  · show (capture cfg m currentsp rtcb filename lineno).user.top = _
    rw [capture_user]
  · show (capture cfg m currentsp rtcb filename lineno).user.size = _
    rw [capture_user]
  · intro hc
    have : (capture cfg m currentsp rtcb filename lineno).interrupt = _ :=
      capture_interrupt cfg m currentsp rtcb filename lineno
    rw [if_pos hc] at this
    constructor
    · show (capture cfg m currentsp rtcb filename lineno).interrupt.top = _
      rw [this]
    · show (capture cfg m currentsp rtcb filename lineno).interrupt.size = _
      rw [this]
  · intro hle
    rw [hu, usub32_of_le _ _ hut hle]
    omega
  · intro hc hle
    rw [hi hc, usub32_of_le _ _ hit hle]
    omega
  · intro hlt
    rw [hu]
    have := usub32_of_lt _ _ hut hus hlt
    omega
  · intro hc hlt
    rw [hi hc]
    have := usub32_of_lt _ _ hit his hlt
    omega

/-- C1 (witness): a task with the stack `(0x800, 0x1000]` and the stack pointer
`0xC00`, captured outside of any interrupt. -/
theorem crashdump_invalid_flags_witness :
    hasFlag (board_crashdump exampleConfig (exampleMachine 0 0) 0xC00 taskTcb none 0).dump.flags
      eInvalidUserStackPtr = false ∧
    (board_crashdump exampleConfig (exampleMachine 0 0) 0xC00 taskTcb none 0).dump.user
      = ⟨0xC00, 0x1000, 0x800⟩ := by
  have h := crashdump_invalid_flags exampleConfig (exampleMachine 0 0) 0xC00 taskTcb none 0
  refine ⟨?_, by decide⟩
  have h6 := h.2.2.2.2.2.1 (by decide)
  rw [Bool.eq_false_iff]
  intro hf
  exact (h6.1 hf) (by decide)

/-- C1 (counterexample): a control block that gives the stack size `0x200` for
the top `0x100`. The stack pointer `0x80` lies inside the integer interval
`(0x100 - 0x200, 0x100]`, and the invalid flag is set. -/
theorem crashdump_invalid_flag_integer_interval :
    ((((board_crashdump exampleConfig (exampleMachine 0 0) 0x80 exampleTcb none 0).dump.user.top
          : Nat) : Int)
        - (board_crashdump exampleConfig (exampleMachine 0 0) 0x80 exampleTcb none 0).dump.user.size
      < (board_crashdump exampleConfig (exampleMachine 0 0) 0x80 exampleTcb none 0).dump.user.sp ∧
     (board_crashdump exampleConfig (exampleMachine 0 0) 0x80 exampleTcb none 0).dump.user.sp
      ≤ (board_crashdump exampleConfig (exampleMachine 0 0) 0x80 exampleTcb none 0).dump.user.top) ∧
    hasFlag (board_crashdump exampleConfig (exampleMachine 0 0) 0x80 exampleTcb none 0).dump.flags
      eInvalidUserStackPtr = true := by
  decide

/-- C10 (amended): `eUserStackPresent` is set in every record, so
`eInvalidUserStackPtr` is set only with it. The interrupt window is tested in
every capture (when the interrupt stack is configured), whether or not it was
populated: `eInvalidIntStackPrt` is set exactly when the recorded interrupt
stack pointer fails the window test, and with no interrupt context active the
recorded pointer is 0, the window stays zero, `eIntStackPresent` is clear and
`eInvalidIntStackPrt` is set. -/
theorem crashdump_invalid_needs_present (cfg : Config) (m : Machine) (currentsp : Nat)
    (rtcb : tcb_s) (filename : Option (List Nat)) (lineno : Int) :
    let r := (board_crashdump cfg m currentsp rtcb filename lineno).dump
    hasFlag r.flags eUserStackPresent = true ∧
    (hasFlag r.flags eInvalidUserStackPtr = true → hasFlag r.flags eUserStackPresent = true) ∧
    (hasFlag r.flags eInvalidIntStackPrt = true ↔
      3 < cfg.CONFIG_ARCH_INTERRUPTSTACK ∧ inWindow r.interrupt = false) ∧
    (u32 m.CURRENT_REGS ≠ 0 → hasFlag r.flags eIntStackPresent = true) ∧
    (u32 m.CURRENT_REGS = 0 → 3 < cfg.CONFIG_ARCH_INTERRUPTSTACK →
      r.interrupt.sp = 0 ∧
      r.istack = List.replicate cfg.istackWords 0 ∧
      hasFlag r.flags eIntStackPresent = false ∧
      hasFlag r.flags eInvalidIntStackPrt = true) := by
  intro r
  have hp : hasFlag r.flags eRegsPresent = (u32 m.CURRENT_REGS != 0) ∧
      hasFlag r.flags eUserStackPresent = true ∧
      hasFlag r.flags eIntStackPresent = (u32 m.CURRENT_REGS != 0) :=
    capture_presence cfg m currentsp rtcb filename lineno
  have hinv : hasFlag r.flags eInvalidIntStackPrt =
      (decide (cfg.CONFIG_ARCH_INTERRUPTSTACK > 3) && !(inWindow r.interrupt)) :=
    capture_invalid_int cfg m currentsp rtcb filename lineno
  have hint : r.interrupt = _ := capture_interrupt cfg m currentsp rtcb filename lineno
  obtain ⟨g, hg⟩ := capture_istack cfg m currentsp rtcb filename lineno
  have hist : r.istack = _ := hg
  have hiff : hasFlag r.flags eInvalidIntStackPrt = true ↔
      3 < cfg.CONFIG_ARCH_INTERRUPTSTACK ∧ inWindow r.interrupt = false := by
    rw [hinv]
    simp only [gt_iff_lt, Bool.and_eq_true, decide_eq_true_eq, Bool.not_eq_true']
  refine ⟨hp.2.1, fun _ => hp.2.1, hiff, ?_, ?_⟩
  · intro hne
    rw [hp.2.2]
    simpa using hne
  · intro h0 hc
    have hb : (u32 m.CURRENT_REGS != 0) = false := by simp [h0]
    have hsp : r.interrupt.sp = 0 := by
      rw [hint]
      split <;> simp only [hb, Bool.false_eq_true, if_false]
    refine ⟨hsp, ?_, ?_, ?_⟩
    · rw [hist]
      simp only [hb, Bool.false_eq_true, and_false, if_false]
    · rw [hp.2.2, hb]
    · rw [hiff]
      refine ⟨hc, ?_⟩
      rw [Bool.eq_false_iff, Ne, inWindow_iff, hsp]
      omega

/-- C10 (witness): a capture outside of any interrupt, stack pointer in range. -/
theorem crashdump_invalid_needs_present_witness :
    (board_crashdump exampleConfig (exampleMachine 0 0) 0xC00 taskTcb none 0).dump.flags
      = eUserStackPresent ||| eInvalidIntStackPrt ∧
    (board_crashdump exampleConfig (exampleMachine 0 0) 0xC00 taskTcb none 0).dump.interrupt.sp
      = 0 := by
  have h := (crashdump_invalid_needs_present exampleConfig (exampleMachine 0 0) 0xC00 taskTcb
    none 0).2.2.2.2 (by decide) (by decide)
  exact ⟨by decide, h.1⟩

/-- C10 (counterexample): a capture with no interrupt context active has
`eInvalidIntStackPrt` set while `eIntStackPresent` is clear. -/
theorem crashdump_invalid_int_without_present :
    hasFlag (board_crashdump exampleConfig (exampleMachine 0 0) 0xC00 taskTcb none 0).dump.flags
      eInvalidIntStackPrt = true ∧
    hasFlag (board_crashdump exampleConfig (exampleMachine 0 0) 0xC00 taskTcb none 0).dump.flags
      eIntStackPresent = false := by
  decide

/-- C7: the record is handed to `stm32_bbsram_savepanic` once. The result `-ENXIO`
sends the text "Memory wiped - dump not saved!" to `up_lowputc`, character by
character; the result `-ENOSPC` sends the single character `!`; any other
result sends nothing. The two texts differ. -/
theorem crashdump_save_report (cfg : Config) (m : Machine) (currentsp : Nat)
    (rtcb : tcb_s) (filename : Option (List Nat)) (lineno : Int) :
    let r := board_crashdump cfg m currentsp rtcb filename lineno
    let rv := m.stm32_bbsram_savepanic r.dump
    r.savepanic = [r.dump] ∧
    (rv = - ENXIO → r.lowputc = "Memory wiped - dump not saved!".toList) ∧
    (rv = - ENOSPC → r.lowputc = ['!']) ∧
    (rv ≠ - ENXIO → rv ≠ - ENOSPC → r.lowputc = []) ∧
    "Memory wiped - dump not saved!".toList ≠ ['!'] ∧
    "Memory wiped - dump not saved!".toList ≠ [] := by
  intro r rv
  have hl : r.lowputc = reportSave rv := rfl
  refine ⟨rfl, ?_, ?_, ?_, by decide, by decide⟩
  · intro h
    rw [hl, h]
    rfl
  · intro h
    rw [hl, h]
    rfl
  · intro h1 h2
    rw [hl]
    unfold reportSave
    rw [if_neg h1, if_neg h2]

/-- C7 (witness): the three kinds of result of the save. -/
theorem crashdump_save_report_witness :
    (board_crashdump exampleConfig (exampleMachine 0 (- ENXIO)) 0xC00 taskTcb none 0).lowputc
      = "Memory wiped - dump not saved!".toList ∧
    (board_crashdump exampleConfig (exampleMachine 0 (- ENOSPC)) 0xC00 taskTcb none 0).lowputc
      = ['!'] ∧
    (board_crashdump exampleConfig (exampleMachine 0 OK) 0xC00 taskTcb none 0).lowputc = [] :=
  ⟨(crashdump_save_report exampleConfig (exampleMachine 0 (- ENXIO)) 0xC00 taskTcb none 0).2.1 rfl,
   (crashdump_save_report exampleConfig (exampleMachine 0 (- ENOSPC)) 0xC00 taskTcb none 0).2.2.1
     rfl,
   (crashdump_save_report exampleConfig (exampleMachine 0 OK) 0xC00 taskTcb none 0).2.2.2.1
     (by decide) (by decide)⟩

/-! ## The stack windows -/

theorem cstr_drop (f : List Nat) : ∀ n : Nat, n ≤ strlen f → cstr (f.drop n) = (cstr f).drop n := by
  induction f with
  | nil => intro n _; simp [cstr]
  | cons b bs ih =>
    intro n hn
    cases n with
    | zero => rfl
    | succ k =>
      by_cases hb : b = 0
      · subst hb
        simp [strlen, cstr] at hn
      · have h1 : cstr (b :: bs) = b :: cstr bs := by
          simp [cstr, List.takeWhile_cons, hb]
        have hk : k ≤ strlen bs := by
          unfold strlen at hn ⊢
          rw [h1, List.length_cons] at hn
          omega
        rw [h1, List.drop_succ_cons, List.drop_succ_cons]
        exact ih k hk

theorem strncpy_of_le (s : List Nat) (n : Nat) (h : strlen s ≤ n) :
    strncpy s n = cstr s ++ List.replicate (n - strlen s) 0 := by
  unfold strncpy
  unfold strlen at h
  rw [List.take_of_length_le h]
  rfl

theorem saveFilename_fits (cfg : Config) (f old : List Nat) (hL : strlen f + 1 < 2 ^ 32)
    (h : strlen f + 1 ≤ cfg.MAX_FILE_PATH_LENGTH) :
    saveFilename cfg (some f) old
      = cstr f ++ List.replicate (cfg.MAX_FILE_PATH_LENGTH - strlen f) 0 := by
  have hlen : u32 (strlen f + 1) = strlen f + 1 := by unfold u32; omega
  show strncpy (f.drop (if u32 (strlen f + 1) > cfg.MAX_FILE_PATH_LENGTH then
    usub32 (u32 (strlen f + 1)) cfg.MAX_FILE_PATH_LENGTH else 0)) cfg.MAX_FILE_PATH_LENGTH = _
  rw [hlen, if_neg (by omega), List.drop_zero, strncpy_of_le _ _ (by omega)]

theorem saveFilename_long (cfg : Config) (f old : List Nat) (hL : strlen f + 1 < 2 ^ 32)
    (hW : 0 < cfg.MAX_FILE_PATH_LENGTH) (h : cfg.MAX_FILE_PATH_LENGTH < strlen f + 1) :
    saveFilename cfg (some f) old
      = (cstr f).drop (strlen f - (cfg.MAX_FILE_PATH_LENGTH - 1)) ++ [0] := by
  have hlen : u32 (strlen f + 1) = strlen f + 1 := by unfold u32; omega
  have hoff : usub32 (strlen f + 1) cfg.MAX_FILE_PATH_LENGTH
      = strlen f - (cfg.MAX_FILE_PATH_LENGTH - 1) := by
    unfold usub32 u32
    split <;> omega
  show strncpy (f.drop (if u32 (strlen f + 1) > cfg.MAX_FILE_PATH_LENGTH then
    usub32 (u32 (strlen f + 1)) cfg.MAX_FILE_PATH_LENGTH else 0)) cfg.MAX_FILE_PATH_LENGTH = _
  rw [hlen, if_pos (by omega), hoff]
  have hd : strlen (f.drop (strlen f - (cfg.MAX_FILE_PATH_LENGTH - 1)))
      = cfg.MAX_FILE_PATH_LENGTH - 1 := by
    have hcl : (cstr f).length = strlen f := rfl
    show (cstr (f.drop (strlen f - (cfg.MAX_FILE_PATH_LENGTH - 1)))).length = _
    rw [cstr_drop _ _ (by omega), List.length_drop, hcl]
    omega
  rw [strncpy_of_le _ _ (by omega), hd, cstr_drop _ _ (by omega)]
  have h1 : cfg.MAX_FILE_PATH_LENGTH - (cfg.MAX_FILE_PATH_LENGTH - 1) = 1 := by omega
  rw [h1]
  rfl

/-- C8: for a file name `f` of length `L` (its characters are `cstr f`) and a
field of `W` bytes: when `L + 1 <= W` the field holds the whole name followed
by zero bytes up to `W`; when `L + 1 > W` it holds the last `W - 1` characters
of the name, a suffix of the name, followed by one NUL. In both cases the field
has `W` bytes and ends with a NUL. With a null file name pointer the field is
all zero. -/
theorem crashdump_filename (cfg : Config) (m : Machine) (currentsp : Nat) (rtcb : tcb_s)
    (f : List Nat) (lineno : Int) (hW : 0 < cfg.MAX_FILE_PATH_LENGTH)
    (hL : strlen f + 1 < 2 ^ 32) :
    let r := (board_crashdump cfg m currentsp rtcb (some f) lineno).dump
    (strlen f + 1 ≤ cfg.MAX_FILE_PATH_LENGTH →
      r.filename = cstr f ++ List.replicate (cfg.MAX_FILE_PATH_LENGTH - strlen f) 0) ∧
    (strlen f + 1 > cfg.MAX_FILE_PATH_LENGTH →
      r.filename = (cstr f).drop (strlen f - (cfg.MAX_FILE_PATH_LENGTH - 1)) ++ [0] ∧
      ((cstr f).drop (strlen f - (cfg.MAX_FILE_PATH_LENGTH - 1))).length
        = cfg.MAX_FILE_PATH_LENGTH - 1 ∧
      (cstr f).drop (strlen f - (cfg.MAX_FILE_PATH_LENGTH - 1)) <:+ cstr f) ∧
    r.filename.length = cfg.MAX_FILE_PATH_LENGTH ∧
    (∃ body : List Nat, r.filename = body ++ [0]) ∧
    (board_crashdump cfg m currentsp rtcb none lineno).dump.filename
      = List.replicate cfg.MAX_FILE_PATH_LENGTH 0 := by
  intro r
  have hr : r.filename = saveFilename cfg (some f) (List.replicate cfg.MAX_FILE_PATH_LENGTH 0) :=
    capture_filename cfg m currentsp rtcb (some f) lineno
  have hn : (board_crashdump cfg m currentsp rtcb none lineno).dump.filename
      = List.replicate cfg.MAX_FILE_PATH_LENGTH 0 :=
    capture_filename cfg m currentsp rtcb none lineno
  have hlen : ((cstr f).drop (strlen f - (cfg.MAX_FILE_PATH_LENGTH - 1))).length
      = strlen f - (strlen f - (cfg.MAX_FILE_PATH_LENGTH - 1)) := by
    rw [List.length_drop]
    rfl
  have hcl : (cstr f).length = strlen f := rfl
  refine ⟨?_, ?_, ?_, ?_, hn⟩
  · intro h
    rw [hr, saveFilename_fits cfg f _ hL h]
  · intro h
    rw [hr, saveFilename_long cfg f _ hL hW h]
    exact ⟨rfl, by omega, List.drop_suffix _ _⟩
  · by_cases h : strlen f + 1 ≤ cfg.MAX_FILE_PATH_LENGTH
    · rw [hr, saveFilename_fits cfg f _ hL h, List.length_append, List.length_replicate]
      omega
    · rw [hr, saveFilename_long cfg f _ hL hW (by omega), List.length_append,
        List.length_singleton]
      omega
  · by_cases h : strlen f + 1 ≤ cfg.MAX_FILE_PATH_LENGTH
    · refine ⟨cstr f ++ List.replicate (cfg.MAX_FILE_PATH_LENGTH - strlen f - 1) 0, ?_⟩
      have hk : cfg.MAX_FILE_PATH_LENGTH - strlen f
          = (cfg.MAX_FILE_PATH_LENGTH - strlen f - 1) + 1 := by omega
      rw [hr, saveFilename_fits cfg f _ hL h, hk, List.replicate_succ', List.append_assoc]
      simp
    · exact ⟨_, by rw [hr, saveFilename_long cfg f _ hL hW (by omega)]⟩

/-- C8 (witness): an 8-byte field with the 10-character name `abcdefghij` and
with the 3-character name `abc`. -/
theorem crashdump_filename_witness :
    (board_crashdump exampleConfig (exampleMachine 0 0) 0xC00 taskTcb
        (some [97, 98, 99, 100, 101, 102, 103, 104, 105, 106]) 0).dump.filename
      = [100, 101, 102, 103, 104, 105, 106, 0] ∧
    (board_crashdump exampleConfig (exampleMachine 0 0) 0xC00 taskTcb
        (some [97, 98, 99]) 0).dump.filename
      = [97, 98, 99, 0, 0, 0, 0, 0] := by
  have h1 := (crashdump_filename exampleConfig (exampleMachine 0 0) 0xC00 taskTcb
    [97, 98, 99, 100, 101, 102, 103, 104, 105, 106] 0 (by decide) (by decide)).2.1 (by decide)
  have h2 := (crashdump_filename exampleConfig (exampleMachine 0 0) 0xC00 taskTcb
    [97, 98, 99] 0 (by decide) (by decide)).1 (by decide)
  exact ⟨h1.1.trans (by decide), h2.trans (by decide)⟩

/-! ## The menu loop -/

theorem menuLoop_done {σ : Type} (S : Store σ) (fuel : Nat) (c : Int) (w : World σ) :
    menuLoop S fuel c true w = ⟨w, true⟩ := by
  cases fuel <;> rfl

/-- Once an ignored character is the current one the loop makes no progress:
`continue` goes back to the loop test with the same character. -/
theorem menuLoop_ignored {σ : Type} (S : Store σ) (c : Int) (hc : isIgnored c = true) :
    ∀ (fuel : Nat) (w : World σ), menuLoop S fuel c false w = ⟨w, false⟩ := by
  intro fuel
  induction fuel with
  | zero => intro w; rfl
  | succ n ih =>
    intro w
    rw [menuLoop]
    simp only [Bool.false_eq_true, if_false, hc, if_true]
    exact ih w

theorem menuAction_eq {σ : Type} (S : Store σ) (c : Int) (w : World σ) :
    menuAction S c false w
      = (isContinue c,
         { store := menuEffect S w.store c, stdin := w.stdin, bytesWaiting := w.bytesWaiting
           log := w.log ++ menuCalls c }) := by
  unfold menuAction menuEffect menuCalls isContinue World.call
  by_cases h1 : c = ord 'D' ∨ c = ord 'd'
  · have h3 : ¬ (c = ord 'B' ∨ c = ord 'b') := by
      rcases h1 with h | h <;> subst h <;> decide
    simp [h1, (not_or.mp h3).1, (not_or.mp h3).2]
  · by_cases h2 : c = ord 'C' ∨ c = ord 'c'
    · have h3 : ¬ (c = ord 'B' ∨ c = ord 'b') := by
        rcases h2 with h | h <;> subst h <;> decide
      simp [h1, h2, (not_or.mp h3).1, (not_or.mp h3).2]
    · by_cases h3 : c = ord 'B' ∨ c = ord 'b'
      · simp [h1, h2, h3]
      · simp [h1, h2, (not_or.mp h3).1, (not_or.mp h3).2]
/-- One pass of the loop body for a character that is neither ignored nor `B`/`b`:
the character is processed and the next one is read. -/
theorem menuLoop_step {σ : Type} (S : Store σ) (fuel : Nat) (c c1 : Int) (cs : List Int)
    (w : World σ) (hi : isIgnored c = false) (hc : isContinue c = false)
    (hin : w.stdin = c1 :: cs) :
    menuLoop S (fuel + 1) c false w
      = menuLoop S fuel c1 false
          { store := menuEffect S w.store c, stdin := cs, bytesWaiting := w.bytesWaiting
            log := w.log ++ menuLog c ++ [.getchar] } := by
  rw [menuLoop]
  simp only [Bool.false_eq_true, if_false, hi, menuAction_eq, hc, World.emit, Bool.not_false,
    if_true, World.getchar, hin, menuLog, List.append_assoc, List.cons_append, List.nil_append,
    List.singleton_append]

/-- One pass of the loop body for `B` or `b`: the loop ends. -/
theorem menuLoop_continue {σ : Type} (S : Store σ) (fuel : Nat) (c : Int) (w : World σ)
    (hi : isIgnored c = false) (hc : isContinue c = true) :
    menuLoop S (fuel + 1) c false w
      = ⟨{ store := w.store, stdin := w.stdin, bytesWaiting := w.bytesWaiting
           log := w.log ++ menuLog c }, true⟩ := by
  have hm : menuCalls c = [] := by
    unfold isContinue at hc
    simp only [Bool.or_eq_true, beq_iff_eq] at hc
    unfold menuCalls
    rcases hc with h | h <;> subst h <;> decide
  have he : menuEffect S w.store c = w.store := by
    unfold isContinue at hc
    simp only [Bool.or_eq_true, beq_iff_eq] at hc
    unfold menuEffect
    have h1 : ¬ (c = ord 'D' ∨ c = ord 'd') := by rcases hc with h | h <;> subst h <;> decide
    have h2 : ¬ (c = ord 'C' ∨ c = ord 'c') := by rcases hc with h | h <;> subst h <;> decide
    rw [if_neg h1, if_neg h2]
  rw [menuLoop]
  simp only [Bool.false_eq_true, if_false, hi, menuAction_eq, hc, World.emit, Bool.not_true,
    menuLoop_done, menuLog, hm, he, List.append_assoc, List.cons_append, List.nil_append,
    List.singleton_append, List.append_nil]

theorem isContinue_not_ignored (c : Int) (hc : isContinue c = true) : isIgnored c = false := by
  unfold isContinue at hc
  simp only [Bool.or_eq_true, beq_iff_eq] at hc
  rcases hc with h | h <;> subst h <;> decide

/-- The run of the loop over the pending characters `pre ++ b :: rest`, where no
character of `c :: pre` is ignored or is `B`/`b`, and `b` is `B` or `b`. -/
theorem menuLoop_run {σ : Type} (S : Store σ) (b : Int) (rest : List Int)
    (hb : isContinue b = true) :
    ∀ (pre : List Int) (c : Int) (w : World σ) (fuel : Nat),
      (∀ x ∈ c :: pre, isIgnored x = false ∧ isContinue x = false) →
      w.stdin = pre ++ b :: rest → pre.length + 2 ≤ fuel →
      menuLoop S fuel c false w
        = ⟨{ store := (c :: pre).foldl (menuEffect S) w.store, stdin := rest
             bytesWaiting := w.bytesWaiting
             log := w.log ++ menuLog c
               ++ (pre ++ [b]).flatMap (fun x => Event.getchar :: menuLog x) }, true⟩ := by
  intro pre
  induction pre with
  | nil =>
    intro c w fuel hall hin hfuel
    obtain ⟨n, rfl⟩ : ∃ n, fuel = n + 2 := ⟨fuel - 2, by simp at hfuel; omega⟩
    have hc := hall c (List.mem_cons_self _ _)
    rw [menuLoop_step S (n + 1) c b rest w hc.1 hc.2 (by simpa using hin),
      menuLoop_continue S n b _ (isContinue_not_ignored b hb) hb]
    simp [List.flatMap]
  | cons c1 pre ih =>
    intro c w fuel hall hin hfuel
    obtain ⟨n, rfl⟩ : ∃ n, fuel = n + 1 := ⟨fuel - 1, by simp at hfuel; omega⟩
    have hc := hall c (List.mem_cons_self _ _)
    rw [menuLoop_step S n c c1 (pre ++ b :: rest) w hc.1 hc.2 (by simpa using hin),
      ih c1 _ n (fun x hx => hall x (List.mem_cons_of_mem _ hx)) rfl
        (by simp at hfuel ⊢; omega)]
    simp [List.flatMap]

theorem storeCalls_append (l1 l2 : List Event) :
    storeCalls (l1 ++ l2) = storeCalls l1 ++ storeCalls l2 := by
  unfold storeCalls
  rw [List.filter_append]

theorem storeCalls_menuLog (c : Int) : storeCalls (menuLog c) = menuCalls c := by
  unfold menuLog menuCalls storeCalls
  split
  · rfl
  · split <;> rfl

theorem storeCalls_getchar_menuLog (l : List Int) :
    storeCalls (l.flatMap (fun x => Event.getchar :: menuLog x)) = l.flatMap menuCalls := by
  induction l with
  | nil => rfl
  | cons x xs ih =>
    rw [List.flatMap_cons, List.flatMap_cons, storeCalls_append, ih]
    congr 1
    exact storeCalls_menuLog x

/-- One pass of the loop body when no character is pending: `getchar` gives
`EOF`, which is an ignored character. -/
theorem menuLoop_step_eof {σ : Type} (S : Store σ) (fuel : Nat) (c : Int)
    (w : World σ) (hi : isIgnored c = false) (hc : isContinue c = false)
    (hin : w.stdin = []) :
    menuLoop S (fuel + 1) c false w
      = ⟨{ store := menuEffect S w.store c, stdin := [], bytesWaiting := w.bytesWaiting
           log := w.log ++ menuLog c ++ [.getchar] }, false⟩ := by
  rw [menuLoop]
  simp only [Bool.false_eq_true, if_false, hi, menuAction_eq, hc, World.emit, Bool.not_false,
    if_true, World.getchar, hin, menuLog, List.append_assoc, List.cons_append, List.nil_append,
    List.singleton_append]
  exact menuLoop_ignored S EOF (by decide) fuel _

/-- The loop only adds to the log. -/
theorem menuLoop_log {σ : Type} (S : Store σ) :
    ∀ (fuel : Nat) (c : Int) (d : Bool) (w : World σ),
      w.log <+: (menuLoop S fuel c d w).world.log := by
  intro fuel
  induction fuel with
  | zero => intro c d w; exact List.prefix_refl _
  | succ n ih =>
    intro c d w
    cases d with
    | true => rw [menuLoop_done]
    | false =>
      by_cases hi : isIgnored c = true
      · rw [menuLoop_ignored S c hi]
      · rw [Bool.not_eq_true] at hi
        by_cases hc : isContinue c = true
        · rw [menuLoop_continue S n c w hi hc]
          exact List.prefix_append _ _
        · rw [Bool.not_eq_true] at hc
          cases hs : w.stdin with
          | nil =>
            rw [menuLoop_step_eof S n c w hi hc hs, List.append_assoc]
            exact List.prefix_append _ _
          | cons c1 cs =>
            rw [menuLoop_step S n c c1 cs w hi hc hs]
            refine List.IsPrefix.trans ?_ (ih _ _ _)
            show w.log <+: w.log ++ menuLog c ++ [.getchar]
            rw [List.append_assoc]
            exact List.prefix_append _ _

/-! ## Claims on the recovery step of `board_app_initialize` -/

theorem board_app_initialize_present {σ : Type} (S : Store σ) (fuel : Nat) (w : World σ)
    (hst : (S.hardfault_check_status w.store).1 = OK) :
    board_app_initialize S fuel w
      = if (S.hardfault_increment_reboot false (S.hardfault_check_status w.store).2).1 > 2
            ∨ w.bytesWaiting ≠ 0 then
          haltedBranch S fuel
            (S.hardfault_increment_reboot false (S.hardfault_check_status w.store).2).1
            w.bytesWaiting
            { store := (S.hardfault_increment_reboot false (S.hardfault_check_status w.store).2).2
              stdin := w.stdin, bytesWaiting := w.bytesWaiting
              log := w.log ++ decisionLog }
        else
          ⟨{ store :=
               (S.hardfault_increment_reboot false (S.hardfault_check_status w.store).2).2
             stdin := w.stdin, bytesWaiting := w.bytesWaiting
             log := w.log ++ decisionLog }, true⟩ := by
  unfold board_app_initialize World.call World.emit decisionLog
  simp only [hst, if_true, List.append_assoc, List.cons_append, List.nil_append,
    List.singleton_append]

theorem haltedBranch_log {σ : Type} (S : Store σ) (fuel : Nat) (reboots bytesWaiting : Int)
    (w : World σ) :
    w.log ++ [.hardfault_write, .message (.halted reboots (bytesWaiting != 0))]
      <+: (haltedBranch S fuel reboots bytesWaiting w).world.log := by
  unfold haltedBranch World.call World.emit
  refine List.IsPrefix.trans ?_ (menuLoop_log S _ _ _ _)
  simp

/-- C3: with the slot present, `r` the count given by the non-clearing increment
and `w` the number of pending input bytes, the step ends at once, with no dump
and without entering the loop, exactly when `r <= 2` and `w = 0`; otherwise the
halted branch runs, which starts with the dump and the halt notice. -/
theorem recovery_decision {σ : Type} (S : Store σ) (fuel : Nat) (w : World σ)
    (hst : (S.hardfault_check_status w.store).1 = OK) :
    let reboots := (S.hardfault_increment_reboot false (S.hardfault_check_status w.store).2).1
    let w2 : World σ :=
      { store := (S.hardfault_increment_reboot false (S.hardfault_check_status w.store).2).2
        stdin := w.stdin, bytesWaiting := w.bytesWaiting, log := w.log ++ decisionLog }
    let r := board_app_initialize S fuel w
    (r = ⟨w2, true⟩ ↔ reboots ≤ 2 ∧ w.bytesWaiting = 0) ∧
    (¬ (reboots ≤ 2 ∧ w.bytesWaiting = 0) →
      r = haltedBranch S fuel reboots w.bytesWaiting w2 ∧
      w2.log ++ [.hardfault_write, .message (.halted reboots (w.bytesWaiting != 0))]
        <+: r.world.log) := by
  intro reboots w2 r
  have hr : r = if reboots > 2 ∨ w.bytesWaiting ≠ 0 then
      haltedBranch S fuel reboots w.bytesWaiting w2 else ⟨w2, true⟩ :=
    board_app_initialize_present S fuel w hst
  have hhalt : ¬ (reboots ≤ 2 ∧ w.bytesWaiting = 0) →
      r = haltedBranch S fuel reboots w.bytesWaiting w2 ∧
      w2.log ++ [.hardfault_write, .message (.halted reboots (w.bytesWaiting != 0))]
        <+: r.world.log := by
    intro hn
    have hc : reboots > 2 ∨ w.bytesWaiting ≠ 0 := by
      by_cases h1 : reboots ≤ 2
      · right
        intro h2
        exact hn ⟨h1, h2⟩
      · left
        omega
    rw [hr, if_pos hc]
    exact ⟨rfl, haltedBranch_log S fuel reboots w.bytesWaiting w2⟩
  refine ⟨⟨?_, ?_⟩, hhalt⟩
  · intro heq
    by_contra hn
    have hp := (hhalt hn).2
    rw [heq] at hp
    have hlen := hp.length_le
    simp at hlen
  · intro hc
    have hn : ¬ (reboots > 2 ∨ w.bytesWaiting ≠ 0) := by
      rintro (h | h)
      · omega
      · exact h hc.2
    rw [hr, if_neg hn]

/-- C3 (witness): with the store of the specification and no input waiting, the
counts 1 and 2 proceed and the count 3 halts; with a byte waiting the count 1
halts. -/
theorem recovery_decision_witness :
    ( board_app_initialize specStore 8 ⟨⟨true, 0⟩, [ord 'b'], 0, []⟩)
      = ⟨⟨⟨true, 1⟩, [ord 'b'], 0, decisionLog⟩, true⟩ ∧
    ( board_app_initialize specStore 8 ⟨⟨true, 1⟩, [ord 'b'], 0, []⟩)
      = ⟨⟨⟨true, 2⟩, [ord 'b'], 0, decisionLog⟩, true⟩ ∧
    ( board_app_initialize specStore 8 ⟨⟨true, 2⟩, [ord 'b'], 0, []⟩)
      = haltedBranch specStore 8 3 0 ⟨⟨true, 3⟩, [ord 'b'], 0, decisionLog⟩ ∧
    ( board_app_initialize specStore 8 ⟨⟨true, 0⟩, [ord 'b'], 1, []⟩)
      = haltedBranch specStore 8 1 1 ⟨⟨true, 1⟩, [ord 'b'], 1, decisionLog⟩ :=
  ⟨(recovery_decision specStore 8 ⟨⟨true, 0⟩, [ord 'b'], 0, []⟩ rfl).1.mpr (by decide),
   (recovery_decision specStore 8 ⟨⟨true, 1⟩, [ord 'b'], 0, []⟩ rfl).1.mpr (by decide),
   ((recovery_decision specStore 8 ⟨⟨true, 2⟩, [ord 'b'], 0, []⟩ rfl).2 (by decide)).1,
   ((recovery_decision specStore 8 ⟨⟨true, 0⟩, [ord 'b'], 1, []⟩ rfl).2 (by decide)).1⟩

/-- C4: when the status query gives any result other than `OK`, the step ends at
once. The only call made is the status query: the counter is not incremented,
nothing is dumped or cleared, no console input is queried or read, and the loop
is not entered. -/
theorem recovery_absent {σ : Type} (S : Store σ) (fuel : Nat) (w : World σ)
    (hst : (S.hardfault_check_status w.store).1 ≠ OK) :
    board_app_initialize S fuel w
      = ⟨{ store := (S.hardfault_check_status w.store).2, stdin := w.stdin
           bytesWaiting := w.bytesWaiting
           log := w.log ++ [.hardfault_check_status] }, true⟩ := by
  unfold board_app_initialize World.call
  simp only [hst, if_false]

/-- C4 (witness): an absent slot with input pending on the console. -/
theorem recovery_absent_witness :
    ( board_app_initialize specStore 8 ⟨⟨false, 0⟩, [ord 'd'], 1, []⟩)
      = ⟨⟨⟨false, 0⟩, [ord 'd'], 1, [.hardfault_check_status]⟩, true⟩ :=
  recovery_absent specStore 8 ⟨⟨false, 0⟩, [ord 'd'], 1, []⟩ (by decide)

/-- C5: in the halted loop, for pending input `pre ++ b :: rest` where no character
of `pre` is whitespace, `EOF`, `B` or `b`, and `b` is `B` or `b`: the loop reads
and processes the characters of `pre` in order, then `b`, and ends, leaving
`rest` unread. Its store calls are, in order, those of `menuCalls` for each
character of `pre`: one dump for each `D`/`d`, a rearm followed by an increment
with the clear option for each `C`/`c`, nothing for any other character. With
the store of the specification a `C`/`c` leaves the slot absent with its
counter at zero, and such a slot is reported absent. -/
theorem menu_loop_processes {σ : Type} (S : Store σ) (pre rest : List Int) (b : Int)
    (w : World σ) (fuel : Nat)
    (hpre : ∀ x ∈ pre, isIgnored x = false ∧ isContinue x = false)
    (hb : isContinue b = true) (hin : w.stdin = pre ++ b :: rest)
    (hfuel : pre.length + 2 ≤ fuel) :
    let r := menuLoop S fuel (ord '>') false w
    r.finished = true ∧
    r.world.stdin = rest ∧
    r.world.log
      = w.log ++ menuLog (ord '>') ++ (pre ++ [b]).flatMap (fun x => Event.getchar :: menuLog x) ∧
    storeCalls r.world.log = storeCalls w.log ++ pre.flatMap menuCalls ∧
    r.world.store = pre.foldl (menuEffect S) w.store ∧
    (∀ s : Slot,
      menuEffect specStore s (ord 'C') = ⟨false, 0⟩ ∧
      menuEffect specStore s (ord 'c') = ⟨false, 0⟩ ∧
      menuEffect specStore s (ord 'D') = s ∧
      menuEffect specStore s (ord 'd') = s) ∧
    (specStore.hardfault_check_status ⟨false, 0⟩).1 ≠ OK := by
  intro r
  have hall : ∀ x ∈ ord '>' :: pre, isIgnored x = false ∧ isContinue x = false := by
    intro x hx
    rcases List.mem_cons.mp hx with h | h
    · subst h
      exact ⟨by decide, by decide⟩
    · exact hpre x h
  have hr : r = _ := menuLoop_run S b rest hb pre (ord '>') w fuel hall hin hfuel
  have hb0 : menuCalls b = [] := by
    unfold isContinue at hb
    simp only [Bool.or_eq_true, beq_iff_eq] at hb
    rcases hb with h | h <;> subst h <;> decide
  refine ⟨?_, ?_, ?_, ?_, ?_, ?_, by decide⟩
  · rw [hr]
  · rw [hr]
  · rw [hr]
  · rw [hr]
    show storeCalls (w.log ++ menuLog (ord '>')
      ++ (pre ++ [b]).flatMap (fun x => Event.getchar :: menuLog x)) = _
    rw [storeCalls_append, storeCalls_append, storeCalls_menuLog, storeCalls_getchar_menuLog,
      List.flatMap_append]
    have h0 : menuCalls (ord '>') = [] := by decide
    rw [h0, List.append_nil]
    congr 1
    simp [List.flatMap, hb0]
  · rw [hr]
    show (ord '>' :: pre).foldl (menuEffect S) w.store = _
    rw [List.foldl_cons]
    have h0 : menuEffect S w.store (ord '>') = w.store := by
      unfold menuEffect
      rw [if_neg (by decide), if_neg (by decide)]
    rw [h0]
  · intro s
    exact ⟨rfl, rfl, rfl, rfl⟩

/-- C5 (witness): the input `d`, `c`, `b` on a present slot, with the store of the
specification: one dump, then a rearm and an increment with the clear option,
then the end of the loop with the slot absent and its counter at zero. -/
theorem menu_loop_processes_witness :
    (menuLoop specStore 5 (ord '>') false
        ⟨⟨true, 3⟩, [ord 'd', ord 'c', ord 'b'], 0, []⟩).finished = true ∧
    storeCalls (menuLoop specStore 5 (ord '>') false
        ⟨⟨true, 3⟩, [ord 'd', ord 'c', ord 'b'], 0, []⟩).world.log
      = [.hardfault_write, .hardfault_rearm, .hardfault_increment_reboot true] ∧
    (menuLoop specStore 5 (ord '>') false
        ⟨⟨true, 3⟩, [ord 'd', ord 'c', ord 'b'], 0, []⟩).world.store = ⟨false, 0⟩ ∧
    (specStore.hardfault_check_status (menuLoop specStore 5 (ord '>') false
        ⟨⟨true, 3⟩, [ord 'd', ord 'c', ord 'b'], 0, []⟩).world.store).1 ≠ OK := by
  have h := menu_loop_processes specStore [ord 'd', ord 'c'] [] (ord 'b')
    ⟨⟨true, 3⟩, [ord 'd', ord 'c', ord 'b'], 0, []⟩ 5 (by decide) (by decide) rfl (by decide)
  have hs := h.2.2.2.2.1
  refine ⟨h.1, h.2.2.2.1.trans (by decide), hs.trans (by decide), ?_⟩
  rw [hs]
  decide

/-- C6 (the code at the failing input): slot present, one byte waiting, and the
console input is a space followed by `b`. Whatever the fuel, the loop does not
end, and the `b` is never read. -/
theorem menu_loop_whitespace_spins (fuel : Nat) :
    ( board_app_initialize specStore fuel
        ⟨⟨true, 0⟩, [ord ' ', ord 'b'], 1, []⟩).finished = false ∧
    ord 'b' ∈ ( board_app_initialize specStore fuel
        ⟨⟨true, 0⟩, [ord ' ', ord 'b'], 1, []⟩).world.stdin := by
  rw [board_app_initialize_present specStore fuel ⟨⟨true, 0⟩, [ord ' ', ord 'b'], 1, []⟩ rfl]
  rw [if_pos (by decide)]
  unfold haltedBranch
  cases fuel with
  | zero => exact ⟨rfl, by decide⟩
  | succ n =>
    rw [menuLoop_step specStore n (ord '>') (ord ' ') [ord 'b'] _ (by decide) (by decide) rfl,
      menuLoop_ignored specStore (ord ' ') (by decide)]
    exact ⟨rfl, by decide⟩

end TapV2
